import Mathlib

/-!
Verification development for the Encephalitis-Web-Scraper repository.

The TypeScript sources are shallowly embedded as Lean definitions:

* `src/services/crawler.ts` — `parseSitemap` and `scrapeContent`
  (sitemap parsing with regex fallback, multi-strategy fetching);
* `src/unnamed/part_000` (`services/gemini.ts`) — `classifyPageContent`
  (rate-limit retry loop with exponential backoff);
* `src/services/bedrock.ts` — `exchangeHackathonKey` (credential cache)
  and the response-merge step of `classifyWithBedrock`;
* `src/unnamed/part_002` (`App.tsx`) — `handleStart` / `processQueue`
  (queue initialisation with merge-on-resume, sequential execution,
  progress reporting).

External effects (HTTP responses, the browser `DOMParser`, `atob`,
`Date.now`) are passed in as explicit oracle parameters, so every run of
the embedded code is a pure function of its inputs.  Machine numbers in
the sources are ordinary JS numbers used at small integral values, so
they are modelled as `Nat` / `Int`; reported progress percentages are
modelled exactly as `ℚ`.
-/

/-- JS `haystack.includes(needle)` on strings: substring containment. -/
def listIncl (pat : List Char) : List Char → Bool
  | [] => pat.isEmpty
  | c :: rest => pat.isPrefixOf (c :: rest) || listIncl pat rest

/-- String form of `listIncl` (JS `String.prototype.includes`). -/
def strIncludes (s pat : String) : Bool :=
  listIncl pat.data s.data

/-- JS `haystack.indexOf(needle)` ≥ 0 case: smallest index at which `pat`
occurs in the list, if any. -/
def findSub (pat : List Char) : List Char → Option Nat
  | [] => if pat.isEmpty then some 0 else none
  | c :: rest =>
    if pat.isPrefixOf (c :: rest) then some 0
    else (findSub pat rest).map (· + 1)

/-- JS whitespace as relevant to `trim` (the ASCII whitespace
characters; the sources only ever trim ASCII credential/URL text). -/
def jsWs (c : Char) : Bool :=
  c == ' ' || c == '\t' || c == '\n' || c == '\r' || c == '\x0b' || c == '\x0c'

/-- JS `s.trim()`: strip leading and trailing whitespace. -/
def jsTrim (s : String) : String :=
  String.mk (((s.data.dropWhile jsWs).reverse.dropWhile jsWs).reverse)

/-- JS `s.startsWith(p)`. -/
def jsStartsWith (s pat : String) : Bool :=
  pat.data.isPrefixOf s.data

/-- Modelled from the spec: `TagSet` of `types.ts` (not under `src/`),
§3 of the spec — four tag categories, each a list of strings. -/
structure TagSet where
  personas : List String
  types : List String
  stages : List String
  topics : List String
deriving DecidableEq

/-- Modelled from the spec: `ClassifiedPage` of `types.ts` (not under
`src/`), §3 of the spec — url, title, summary and a `TagSet`. -/
structure ClassifiedPage where
  url : String
  title : String
  summary : String
  tags : TagSet
deriving DecidableEq

/-! ## ContentFetcher: `scrapeContent` (src/services/crawler.ts 45-142)

A retrieval-strategy attempt (one iteration of the `for` loop, lines
77-107) is driven by the network, which we model as one
`StratResult` per strategy:

* `.ok c` — `fetch` resolved with `response.ok` true and the handler
  returned `c` (`none` models a `null`/`undefined` body such as a
  missing `data.contents`);
* `.httpErr s` — `fetch` resolved with `response.ok` false and status `s`;
* `.exn m` — the attempt threw (timeouts surface here as an abort
  error whose message contains `"aborted"`, line 104). -/
inductive StratResult where
  | ok (content : Option String)
  | httpErr (status : Nat)
  | exn (msg : String)
deriving DecidableEq

/-- Line 93: `if (content && content.length > 50)` — the accepted content
of an attempt, if any. -/
def stratAccepted : StratResult → Option String
  | .ok (some t) => if t.length > 50 then some t else none
  | _ => none

/-- The failure detail recorded for a failed attempt (lines 96, 99,
102-105; for exceptions, messages containing `"aborted"` are cleaned to
`"Timeout"`). -/
def stratFailReason : StratResult → String
  | .ok _ => "Returned empty or too short content"
  | .httpErr s => "HTTP " ++ toString s
  | .exn m => if strIncludes m "aborted" then "Timeout" else m

/-- `errorDetails.join(' | ')` (line 112). -/
def joinDetails : List String → String
  | [] => ""
  | [d] => d
  | d :: rest => d ++ " | " ++ joinDetails rest

/-- The strategy loop of `scrapeContent` (lines 77-113): strategies are
tried in order, the first accepted content wins, otherwise each failure
appends `name: reason` to `errorDetails` and, once all strategies are
exhausted, the single fetch error of line 112 is raised. -/
def fetchLoop : List (String × StratResult) → List String → Except String String
  | [], errs => .error ("Failed to fetch content. Attempts: " ++ joinDetails errs)
  | (name, r) :: rest, errs =>
    match stratAccepted r with
    | some content => .ok content
    | none => fetchLoop rest (errs ++ [name ++ ": " ++ stratFailReason r])

/-- The fixed strategy list of lines 48-72, in order. -/
def strategyNames : List String :=
  ["AllOrigins", "CodeTabs", "ThingProxy", "CorsProxy"]

/-- The fetch phase of `scrapeContent` for one run, given each
strategy's network outcome. -/
def scrapeFetchPhase (outcomes : List StratResult) : Except String String :=
  fetchLoop (strategyNames.zip outcomes) []

/-- Errors raised by `scrapeContent`: the all-strategies-failed error of
line 112, and the distinct parse error of line 140. -/
inductive ScrapeError where
  | fetchFailed (msg : String)
  | parseFailed (msg : String)
deriving DecidableEq

/-- Full `scrapeContent` (lines 45-142).  The DOM text-extraction block
(lines 115-137, `DOMParser` + clutter removal + whitespace cleanup) is
driven by the browser and is abstracted as the oracle `extract`; its
failure is wrapped as the distinct parse error of line 140. -/
def scrapeContent (outcomes : List StratResult)
    (extract : String → Except String String) : Except ScrapeError String :=
  match scrapeFetchPhase outcomes with
  | .error m => .error (.fetchFailed m)
  | .ok html =>
    match extract html with
    | .error m => .error (.parseFailed ("Parsing content failed: " ++ m))
    | .ok text => .ok text

/-! ## SitemapParser: `parseSitemap` (src/services/crawler.ts 5-39)

The browser `DOMParser` (lines 6-16) is abstracted as the oracle
`domLocs`: for a given document text it returns the `textContent` of
each `<loc>` element found by structured parsing, in document order
(`none` models a `null` text content).  The regex fallback of lines
30-36 is embedded exactly (JS `/<loc>(.*?)<\/loc>/g`: lazy, `.` does
not match newlines, global scan, empty captures are falsy and skipped
by `if (match[1])`). -/

/-- One global scan of the JS regex `/<loc>(.*?)<\/loc>/g`: from
position `p`, find the next `"<loc>"`; its lazy capture runs to the
nearest following `"</loc>"` and may not contain a newline; on a match
the scan resumes after the `"</loc>"`, otherwise one position past the
failed `"<loc>"`. -/
def regexLocScan (s : List Char) : Nat → Nat → List (List Char)
  | 0, _ => []
  | fuel + 1, p =>
    match findSub "<loc>".data (s.drop p) with
    | none => []
    | some di =>
      let i := p + di
      match findSub "</loc>".data (s.drop (i + 5)) with
      | none => []
      | some dj =>
        let content := (s.drop (i + 5)).take dj
        if content.contains '\n' then regexLocScan s fuel (i + 1)
        else content :: regexLocScan s fuel (i + 5 + dj + 6)

/-- The fallback extraction of lines 30-36: captures of the global
regex over the raw input, skipping empty (falsy) captures, trimmed. -/
def regexFallback (s : String) : List String :=
  (regexLocScan s.data (s.data.length + 2) 0).filterMap fun c =>
    if c.isEmpty then none else some (jsTrim (String.mk c))

/-- Lines 9-10: `cleanContent` — the input from its first `"<?xml"`
occurrence on, or the whole input when there is none. -/
def cleanContentOf (xmlContent : String) : String :=
  match findSub "<?xml".data xmlContent.data with
  | some i => String.mk (xmlContent.data.drop i)
  | none => xmlContent

/-- Line 17-25: the DOM branch — if structured parsing found at least
one `<loc>` element, push the trimmed text content of each element
whose text content is truthy (non-null and nonempty). -/
def domBranch (locs : List (Option String)) : List String :=
  locs.filterMap fun o =>
    match o with
    | some t => if t.isEmpty then none else some (jsTrim t)
    | none => none

/-- `parseSitemap` (lines 5-39), with the browser XML parser abstracted
as `domLocs` (applied to `cleanContent`).  If structured parsing yields
zero locations the regex fallback runs over the raw `xmlContent`. -/
def parseSitemap (domLocs : String → List (Option String))
    (xmlContent : String) : List String :=
  let locs := domLocs (cleanContentOf xmlContent)
  if locs.length > 0 then domBranch locs
  else regexFallback xmlContent

/-- Follows the spec's words (§4.1, §8): the raw `<loc>...</loc>`
substrings of the input, in order of appearance — each `"<loc>"` paired
with the nearest following `"</loc>"`, the scan resuming after it; no
newline restriction, empty contents kept. -/
def specLocContentsScan (s : List Char) : Nat → Nat → List (List Char)
  | 0, _ => []
  | fuel + 1, p =>
    match findSub "<loc>".data (s.drop p) with
    | none => []
    | some di =>
      let i := p + di
      match findSub "</loc>".data (s.drop (i + 5)) with
      | none => []
      | some dj =>
        (s.drop (i + 5)).take dj :: specLocContentsScan s fuel (i + 5 + dj + 6)

/-- Follows the spec's words: contents of the `<loc>...</loc>`
substrings of the raw input, in order of appearance. -/
def specLocContents (s : String) : List (List Char) :=
  specLocContentsScan s.data (s.data.length + 2) 0

/-! ## ClassificationClient, Gemini variant: `classifyPageContent`
(src/unnamed/part_000, lines 48-114)

Each iteration of the `while (true)` loop issues one
`ai.models.generateContent` call and handles its response (lines
69-90); that whole `try` body is driven by the network and is modelled
as one `GOutcome` per attempt number.  The `catch` block (lines
91-112) is embedded exactly: rate-limit detection, bounded retry with
exponential backoff, rethrow otherwise. -/

/-- A JS error value as inspected by lines 93-100: optional `status`,
`code` and `message` fields. -/
structure GErr where
  status : Option Nat := none
  code : Option Nat := none
  message : Option String := none
deriving DecidableEq

/-- Lines 93-100: `isRateLimit` — status or code 429, or a message
containing `"429"`, `"RESOURCE_EXHAUSTED"` or `"quota"`. -/
def isRateLimit (e : GErr) : Bool :=
  e.status == some 429 || e.code == some 429 ||
    (match e.message with
     | some m =>
       strIncludes m "429" || strIncludes m "RESOURCE_EXHAUSTED" ||
         strIncludes m "quota"
     | none => false)

/-- Outcome of one attempt (the `try` body, lines 69-90): either a
`ClassifiedPage` is returned, or an error is thrown (this includes the
`"Empty response from Gemini"` throw of line 84 and `JSON.parse`
failures, which carry no 429 status). -/
inductive GOutcome where
  | success (page : ClassifiedPage)
  | failure (e : GErr)

/-- `MAX_RETRIES` (line 63). -/
def geminiMaxRetries : Nat := 5

/-- The retry loop of lines 67-113, from a given attempt counter and
backoff delay.  Returns the final result together with the list of
waits performed (`await wait(delay)` of line 104), in order and in
milliseconds. -/
def geminiLoop (outs : Nat → GOutcome) (attempt delay : Nat) :
    Except GErr ClassifiedPage × List Nat :=
  match outs attempt with
  | .success page => (.ok page, [])
  | .failure e =>
    if h : isRateLimit e = true ∧ attempt < geminiMaxRetries then
      let r := geminiLoop outs (attempt + 1) (delay * 2)
      (r.1, delay :: r.2)
    else
      (.error e, [])
termination_by geminiMaxRetries - attempt
decreasing_by simp only [geminiMaxRetries] at *; omega

/-- `classifyPageContent`'s loop entry (lines 64-67): attempt 0,
initial delay 5000 ms. -/
def geminiClassify (outs : Nat → GOutcome) :
    Except GErr ClassifiedPage × List Nat :=
  geminiLoop outs 0 5000

/-- The backoff delays after `n` rate-limited attempts:
5000, 10000, 20000, ... -/
def backoffDelays (n : Nat) : List Nat :=
  (List.range n).map fun i => 5000 * 2 ^ i

/-! ## Response merge: `{ url, ...result }`

Both backends build the returned `ClassifiedPage` by object spread.
The parsed JSON response is modelled as a record with the three fields
the schema / prompt demand, plus an optional `url` key that an
unconstrained response may carry: in JS the spread comes *after* the
caller's `url`, so such a key overrides it. -/

/-- A successfully parsed backend response object. -/
structure ParsedResponse where
  url : Option String := none
  title : String
  summary : String
  tags : TagSet
deriving DecidableEq

/-- `return { url, ...result }` of src/unnamed/part_000 lines 87-90:
spread fields override the caller's `url` when present. -/
def geminiBuildPage (callerUrl : String) (result : ParsedResponse) :
    ClassifiedPage :=
  { url := result.url.getD callerUrl
    title := result.title
    summary := result.summary
    tags := result.tags }

/-- `return { url, ...result }` of src/services/bedrock.ts lines
299-302: same object spread as the Gemini variant. -/
def bedrockBuildPage (callerUrl : String) (result : ParsedResponse) :
    ClassifiedPage :=
  { url := result.url.getD callerUrl
    title := result.title
    summary := result.summary
    tags := result.tags }

/-! ## CredentialResolver: `exchangeHackathonKey`
(src/services/bedrock.ts 33-125)

The module-level mutable `cachedCreds` (lines 15-20) becomes an
explicit input/output value; `Date.now()` becomes `env.now` (epoch
milliseconds, `Int`); `atob` and the three proxy strategies of lines
60-79 become oracles.  The output also counts how many strategy fetches
were issued, so that "no fresh exchange happened" is expressible. -/

/-- The cached credential record (lines 15-20). -/
structure Creds where
  accessKeyId : String
  secretAccessKey : String
  sessionToken : String
  expiration : Int
deriving DecidableEq

/-- A key-exchange JSON response as read by lines 100-103: AWS-style
capitalised keys and lowercase variants are both checked.  Field values
model JS truthiness: `none` stands for an absent, null or empty field.
`Expiration` values are already converted to epoch milliseconds
(abstracting `new Date(str).getTime()`). -/
structure ExchangeData where
  AccessKeyId : Option String := none
  accessKeyId : Option String := none
  SecretAccessKey : Option String := none
  secretAccessKey : Option String := none
  SessionToken : Option String := none
  sessionToken : Option String := none
  Expiration : Option Int := none
  expiration : Option Int := none
deriving DecidableEq

/-- The environment of one `exchangeHackathonKey` call: the current
time, the browser `atob` (`none` = decode throws), and for each target
URL the ordered results of the three fetch strategies (`.ok none`
models a falsy JSON body, which the loop skips without recording an
error). -/
structure ExchangeEnv where
  now : Int
  atob : String → Option String
  strategies : String → List (Except String (Option ExchangeData))

/-- Result of a call: the value or thrown message, the cache afterwards,
and how many strategy fetches were issued. -/
structure ExchangeOut where
  result : Except String Creds
  cache : Option Creds
  networkCalls : Nat

/-- `sanitize` (lines 23-26). -/
def sanitize (val : String) : String := jsTrim val

/-- The strategy loop of lines 81-92: first truthy JSON body wins,
thrown messages update `lastError`, falsy bodies are skipped silently.
Returns the body found (if any), the final `lastError`, and the number
of strategies invoked. -/
def credsFetchLoop :
    List (Except String (Option ExchangeData)) → String →
      Option ExchangeData × String × Nat
  | [], lastErr => (none, lastErr, 0)
  | s :: rest, lastErr =>
    match s with
    | .ok (some d) => (some d, lastErr, 1)
    | .ok none =>
      let r := credsFetchLoop rest lastErr
      (r.1, r.2.1, r.2.2 + 1)
    | .error m =>
      let r := credsFetchLoop rest m
      (r.1, r.2.1, r.2.2 + 1)

/-- JS `a || b` over two possibly-absent string fields. -/
def orTruthy (a b : Option String) : Option String :=
  match a with
  | some s => some s
  | none => b

/-- The body of `exchangeHackathonKey` past the cache check (lines
39-124): sanitize, check the `"bedrock-api-key-"` marker, base64-decode
the remainder, default the scheme, fetch through the strategies, then
validate and normalise the response; a success overwrites the cache. -/
def exchangeFresh (cache : Option Creds) (env : ExchangeEnv)
    (apiKey : String) : ExchangeOut :=
  let cleanKey := sanitize apiKey
  if ¬ jsStartsWith cleanKey "bedrock-api-key-" then
    { result := .error
        "Invalid Hackathon Key format. Expected start with 'bedrock-api-key-'"
      cache := cache, networkCalls := 0 }
  else
    let base64Part := cleanKey.drop "bedrock-api-key-".length
    match env.atob base64Part with
    | none =>
      { result := .error "Failed to decode Hackathon Key (Base64 invalid)."
        cache := cache, networkCalls := 0 }
    | some dec =>
      let decodedUrl := if jsStartsWith dec "http" then dec else "https://" ++ dec
      let fetched := credsFetchLoop (env.strategies decodedUrl) ""
      match fetched.1 with
      | none =>
        { result := .error
            ("Key Exchange Failed. Unable to fetch credentials via proxies. Last error: "
              ++ fetched.2.1)
          cache := cache, networkCalls := fetched.2.2 }
      | some d =>
        match orTruthy d.AccessKeyId d.accessKeyId,
            orTruthy d.SecretAccessKey d.secretAccessKey,
            orTruthy d.SessionToken d.sessionToken with
        | some ak, some sk, some st =>
          let expiration : Int :=
            match (match d.Expiration with
                   | some t => some t
                   | none => d.expiration) with
            | some t => t
            | none => env.now + 3600 * 1000
          let credentials : Creds :=
            { accessKeyId := ak, secretAccessKey := sk
              sessionToken := st, expiration := expiration }
          { result := .ok credentials, cache := some credentials
            networkCalls := fetched.2.2 }
        | _, _, _ =>
          { result := .error
              "Failed to parse credentials from key exchange: Invalid response from Key Exchange: Missing credentials fields."
            cache := cache, networkCalls := fetched.2.2 }

/-- `exchangeHackathonKey` (lines 33-125): the cache short-circuit of
lines 34-37 (`cachedCreds.expiration > Date.now() + 5 * 60 * 1000`),
otherwise the fresh-exchange body. -/
def exchangeHackathonKey (cache : Option Creds) (env : ExchangeEnv)
    (apiKey : String) : ExchangeOut :=
  match cache with
  | some c =>
    if c.expiration > env.now + 5 * 60 * 1000 then
      { result := .ok c, cache := some c, networkCalls := 0 }
    else exchangeFresh cache env apiKey
  | none => exchangeFresh cache env apiKey

/-! ## ProcessingQueue: `handleStart` / `processQueue`
(src/unnamed/part_002, lines 156-299)

`scrapeContent` and the selected classifier are abstracted as oracles
(`scrape`, `classify`), the external cancellation flag
`isRunning.current` as `keepRunning` indexed by loop position.  The run
records, besides the final queue, the successive values passed to
`setProgress` (exact rationals) and the URLs for which the fetcher and
the classifier were actually invoked, in order. -/

/-- The per-item states of the queue (`types.ts` status strings used at
lines 187-275). -/
inductive PStatus where
  | pending
  | scraping
  | classifying
  | completed
  | error
deriving DecidableEq

/-- Modelled from the spec: `ProcessingStatus` of `types.ts` (not under
`src/`), §3 of the spec, with the fields `handleStart`/`processQueue`
read and write. -/
structure ProcessingStatus where
  url : String
  status : PStatus
  data : Option ClassifiedPage := none
  error : Option String := none
deriving DecidableEq

/-- Lines 179-181: `new Map(results.map(r => [r.url, r]))` followed by
`.get(url)` — later entries with the same URL override earlier ones. -/
def resultsLookup (results : List ClassifiedPage) (url : String) :
    Option ClassifiedPage :=
  results.foldl (fun acc r => if r.url = url then some r else acc) none

/-- Lines 184-190: the initial queue — URLs found in the prior results
collection start `completed` carrying that result, the rest `pending`. -/
def initQueue (urls : List String) (results : List ClassifiedPage) :
    List ProcessingStatus :=
  urls.map fun url =>
    match resultsLookup results url with
    | some existing =>
      { url := url, status := .completed, data := some existing }
    | none => { url := url, status := .pending }

/-- What a run reports: the final queue, every `setProgress` value in
order, and the URLs passed to `scrapeContent` and to the classifier. -/
structure RunOut where
  queue : List ProcessingStatus
  progressTrace : List ℚ
  scraped : List String
  classified : List String
deriving DecidableEq

/-- The `for` loop of `processQueue` (lines 230-298) over the remaining
items, `i` the current index and `total` the full length:
`if (!isRunning.current) break` leaves the rest untouched; items already
`completed` are skipped (`continue`, lines 233-235) with no progress
report; otherwise the item is scraped then classified, its final status
recorded, and `setProgress(((i + 1) / total) * 100)` is issued
(line 293). -/
def runQueueAux (scrape : String → Except String String)
    (classify : String → String → Except String ClassifiedPage)
    (keepRunning : Nat → Bool) (total : Nat) :
    List ProcessingStatus → Nat → RunOut
  | [], _ => { queue := [], progressTrace := [], scraped := [], classified := [] }
  | it :: rest, i =>
    if keepRunning i = false then
      { queue := it :: rest, progressTrace := [], scraped := [], classified := [] }
    else if it.status = .completed then
      let r := runQueueAux scrape classify keepRunning total rest (i + 1)
      { queue := it :: r.queue, progressTrace := r.progressTrace
        scraped := r.scraped, classified := r.classified }
    else
      let prog : ℚ := ((i : ℚ) + 1) / (total : ℚ) * 100
      let r := runQueueAux scrape classify keepRunning total rest (i + 1)
      match scrape it.url with
      | .error e =>
        { queue := { it with status := .error, error := some e } :: r.queue
          progressTrace := prog :: r.progressTrace
          scraped := it.url :: r.scraped, classified := r.classified }
      | .ok text =>
        match classify it.url text with
        | .error e =>
          { queue := { it with status := .error, error := some e } :: r.queue
            progressTrace := prog :: r.progressTrace
            scraped := it.url :: r.scraped
            classified := it.url :: r.classified }
        | .ok page =>
          { queue := { it with status := .completed, data := some page } :: r.queue
            progressTrace := prog :: r.progressTrace
            scraped := it.url :: r.scraped
            classified := it.url :: r.classified }

/-- `processQueue(items)` (lines 225-299). -/
def processQueue (scrape : String → Except String String)
    (classify : String → String → Except String ClassifiedPage)
    (keepRunning : Nat → Bool) (items : List ProcessingStatus) : RunOut :=
  runQueueAux scrape classify keepRunning items.length items 0

/-- The queue-relevant tail of `handleStart` (lines 171-217), from the
parsed URL list on: empty URL list aborts before any queue is built;
otherwise the queue is initialised by merging prior results; when
nothing is pending `setProgress(100)` is the only report (lines
200-205); otherwise `setProgress(initialProgress)` precedes the loop's
reports. -/
def handleStartRun (scrape : String → Except String String)
    (classify : String → String → Except String ClassifiedPage)
    (keepRunning : Nat → Bool) (urls : List String)
    (results : List ClassifiedPage) : RunOut :=
  if urls.isEmpty then
    { queue := [], progressTrace := [], scraped := [], classified := [] }
  else
    let initialQueue := initQueue urls results
    let pendingCount :=
      (initialQueue.filter fun i => i.status = .pending).length
    let completedCount := initialQueue.length - pendingCount
    let initialProgress : ℚ :=
      if initialQueue.length > 0 then
        ((completedCount : ℚ) / (initialQueue.length : ℚ)) * 100
      else 0
    if pendingCount = 0 then
      { queue := initialQueue, progressTrace := [100]
        scraped := [], classified := [] }
    else
      let r := processQueue scrape classify keepRunning initialQueue
      { queue := r.queue, progressTrace := initialProgress :: r.progressTrace
        scraped := r.scraped, classified := r.classified }

/-! ## Theorems -/

/-- C3: in `scrapeContent`, a retrieval-strategy attempt is accepted iff
the HTTP response indicates success and the returned content has length
strictly greater than 50; an accepted attempt ends the strategy loop
with its content, while a successful response whose content is at most
50 characters is recorded as a failed attempt and the loop moves on to
the next strategy. -/
theorem C3_strategy_acceptance (r : StratResult) :
    ((stratAccepted r).isSome ↔ ∃ c, r = .ok (some c) ∧ 50 < c.length) ∧
    (∀ name rest errs c, stratAccepted r = some c →
      fetchLoop ((name, r) :: rest) errs = .ok c) ∧
    (∀ name rest errs c, r = .ok (some c) → c.length ≤ 50 →
      fetchLoop ((name, r) :: rest) errs =
        fetchLoop rest (errs ++ [name ++ ": Returned empty or too short content"])) := by
  refine ⟨?_, ?_, ?_⟩
  · cases r with
    | ok c =>
      cases c with
      | none => simp [stratAccepted]
      | some t =>
        by_cases h : 50 < t.length
        · simp [stratAccepted, h]
        · simp [stratAccepted, h]
    | httpErr s => simp [stratAccepted]
    | exn m => simp [stratAccepted]
  · intro name rest errs c h
    simp [fetchLoop, h]
  · intro name rest errs c hr hlen
    subst hr
    have h : stratAccepted (.ok (some c)) = none := by
      simp [stratAccepted]; omega
    have hlit : (": " : String) ++ "Returned empty or too short content" =
        ": Returned empty or too short content" := rfl
    simp only [fetchLoop, h, stratFailReason, String.append_assoc, hlit]

/-- C3 witness: a successful response of 3 characters is a failed
attempt and the loop falls through to the next strategy. -/
theorem C3_strategy_acceptance_witness :
    fetchLoop [("AllOrigins", StratResult.ok (some "abc")),
        ("CodeTabs", StratResult.httpErr 404)] [] =
      fetchLoop [("CodeTabs", StratResult.httpErr 404)]
        ["AllOrigins: Returned empty or too short content"] :=
  (C3_strategy_acceptance (.ok (some "abc"))).2.2 "AllOrigins"
    [("CodeTabs", .httpErr 404)] [] "abc" rfl (by decide)

/-- C2: when all four retrieval strategies fail, `scrapeContent` raises
exactly one error — the fetch-failure of line 112 (never the distinct
parse error) — and its message contains, for every strategy, the
strategy's name joined with its failure reason. -/
theorem C2_fetch_failed (r0 r1 r2 r3 : StratResult)
    (extract : String → Except String String)
    (h0 : stratAccepted r0 = none) (h1 : stratAccepted r1 = none)
    (h2 : stratAccepted r2 = none) (h3 : stratAccepted r3 = none) :
    ∃ msg,
      scrapeContent [r0, r1, r2, r3] extract = .error (.fetchFailed msg) ∧
      msg = "Failed to fetch content. Attempts: " ++
        joinDetails
          ["AllOrigins" ++ ": " ++ stratFailReason r0,
           "CodeTabs" ++ ": " ++ stratFailReason r1,
           "ThingProxy" ++ ": " ++ stratFailReason r2,
           "CorsProxy" ++ ": " ++ stratFailReason r3] ∧
      ∀ p ∈ strategyNames.zip [r0, r1, r2, r3],
        ∃ pre post, msg = pre ++ (p.1 ++ ": " ++ stratFailReason p.2) ++ post := by
  refine ⟨_, ?_, rfl, ?_⟩
  · simp [scrapeContent, scrapeFetchPhase, strategyNames, fetchLoop, h0, h1, h2, h3]
  · intro p hp
    simp only [strategyNames, List.zip, List.zipWith, List.mem_cons,
      List.not_mem_nil, or_false] at hp
    rcases hp with hp | hp | hp | hp <;> subst hp
    · exact ⟨"Failed to fetch content. Attempts: ",
        " | " ++ ("CodeTabs" ++ ": " ++ stratFailReason r1 ++ (" | " ++
          ("ThingProxy" ++ ": " ++ stratFailReason r2 ++ (" | " ++
            ("CorsProxy" ++ ": " ++ stratFailReason r3))))),
        by simp [joinDetails, String.append_assoc]⟩
    · exact ⟨"Failed to fetch content. Attempts: " ++
          ("AllOrigins" ++ ": " ++ stratFailReason r0 ++ " | "),
        " | " ++ ("ThingProxy" ++ ": " ++ stratFailReason r2 ++ (" | " ++
          ("CorsProxy" ++ ": " ++ stratFailReason r3))),
        by simp [joinDetails, String.append_assoc]⟩
    · exact ⟨"Failed to fetch content. Attempts: " ++
          ("AllOrigins" ++ ": " ++ stratFailReason r0 ++ (" | " ++
            ("CodeTabs" ++ ": " ++ stratFailReason r1 ++ " | "))),
        " | " ++ ("CorsProxy" ++ ": " ++ stratFailReason r3),
        by simp [joinDetails, String.append_assoc]⟩
    · exact ⟨"Failed to fetch content. Attempts: " ++
          ("AllOrigins" ++ ": " ++ stratFailReason r0 ++ (" | " ++
            ("CodeTabs" ++ ": " ++ stratFailReason r1 ++ (" | " ++
              ("ThingProxy" ++ ": " ++ stratFailReason r2 ++ " | "))))),
        "",
        by simp [joinDetails, String.append_assoc]⟩

/-- C2 witness: a concrete all-fail run — HTTP 500, a timeout abort, a
too-short success and a thrown exception. -/
theorem C2_fetch_failed_witness :
    ∃ msg,
      scrapeContent
          [StratResult.httpErr 500, StratResult.exn "The operation was aborted",
           StratResult.ok (some "tiny"), StratResult.exn "NetworkError"]
          (fun s => .ok s) = .error (.fetchFailed msg) ∧
      msg = "Failed to fetch content. Attempts: " ++
        joinDetails
          ["AllOrigins" ++ ": " ++ stratFailReason (StratResult.httpErr 500),
           "CodeTabs" ++ ": " ++
             stratFailReason (StratResult.exn "The operation was aborted"),
           "ThingProxy" ++ ": " ++ stratFailReason (StratResult.ok (some "tiny")),
           "CorsProxy" ++ ": " ++ stratFailReason (StratResult.exn "NetworkError")] ∧
      ∀ p ∈ strategyNames.zip
          [StratResult.httpErr 500, StratResult.exn "The operation was aborted",
           StratResult.ok (some "tiny"), StratResult.exn "NetworkError"],
        ∃ pre post, msg = pre ++ (p.1 ++ ": " ++ stratFailReason p.2) ++ post :=
  C2_fetch_failed _ _ _ _ _ (by decide) (by decide) (by decide) (by decide)

/-- C7 counterexample: in both variants the object spread
`{ url, ...result }` places the parsed response *after* the caller's
`url`, so a parsed response that itself carries a `url` field overrides
the caller-supplied argument: the returned page's `url` is not the
caller's. -/
theorem C7_counterexample :
    (geminiBuildPage "https://caller.example"
        { url := some "https://other.example", title := "T", summary := "S"
          tags := ⟨[], [], [], []⟩ }).url = "https://other.example" ∧
    (bedrockBuildPage "https://caller.example"
        { url := some "https://other.example", title := "T", summary := "S"
          tags := ⟨[], [], [], []⟩ }).url = "https://other.example" ∧
    ("https://other.example" : String) ≠ "https://caller.example" := by
  refine ⟨rfl, rfl, by decide⟩

/-- C7 (amended): for every successfully parsed backend response that
does not itself carry a `url` field, both variants return a
`ClassifiedPage` whose `url` is the caller-supplied argument and whose
`title`, `summary` and `tags` come from the parsed response. -/
theorem C7_merge_amended (callerUrl : String) (r : ParsedResponse)
    (h : r.url = none) :
    geminiBuildPage callerUrl r =
      { url := callerUrl, title := r.title, summary := r.summary
        tags := r.tags } ∧
    bedrockBuildPage callerUrl r =
      { url := callerUrl, title := r.title, summary := r.summary
        tags := r.tags } := by
  constructor <;> simp [geminiBuildPage, bedrockBuildPage, h]

/-- C7 witness: a concrete response without a `url` key merges with the
caller's URL. -/
theorem C7_merge_amended_witness :
    geminiBuildPage "https://caller.example"
        { title := "T", summary := "S", tags := ⟨["persona:patient"], [], [], []⟩ } =
      { url := "https://caller.example", title := "T", summary := "S"
        tags := ⟨["persona:patient"], [], [], []⟩ } ∧
    bedrockBuildPage "https://caller.example"
        { title := "T", summary := "S", tags := ⟨["persona:patient"], [], [], []⟩ } =
      { url := "https://caller.example", title := "T", summary := "S"
        tags := ⟨["persona:patient"], [], [], []⟩ } :=
  C7_merge_amended "https://caller.example" _ rfl

/-- C10: when the process-wide cache holds a credential whose expiration
is more than 5 minutes past the current time, `exchangeHackathonKey`
returns it unconditionally — for *every* supplied key string (malformed
or not) and every `atob` / proxy behaviour the result is the cached
credential, the cache is unchanged, and no strategy fetch is issued, so
the marker check, the base64 decode and the network exchange are all
skipped. -/
theorem C10_cache_bypasses_validation (c : Creds) (env : ExchangeEnv)
    (apiKey : String) (h : c.expiration > env.now + 5 * 60 * 1000) :
    exchangeHackathonKey (some c) env apiKey =
      { result := .ok c, cache := some c, networkCalls := 0 } := by
  have h' : env.now + 300000 < c.expiration := by omega
  simp [exchangeHackathonKey, h']

/-- C10 witness: a malformed key resolves from a fresh cache entry with
no network traffic. -/
theorem C10_cache_bypasses_validation_witness :
    exchangeHackathonKey (some ⟨"AK", "SK", "ST", 1000000000⟩)
        { now := 0, atob := fun _ => none, strategies := fun _ => [] }
        "not-a-bedrock-key" =
      { result := .ok ⟨"AK", "SK", "ST", 1000000000⟩
        cache := some ⟨"AK", "SK", "ST", 1000000000⟩, networkCalls := 0 } :=
  C10_cache_bypasses_validation _ _ _ (by decide)

/-- A strategy loop that found a JSON body issued at least one fetch. -/
theorem credsFetchLoop_calls_pos :
    ∀ (l : List (Except String (Option ExchangeData))) (e : String)
      (d : ExchangeData), (credsFetchLoop l e).1 = some d →
      1 ≤ (credsFetchLoop l e).2.2 := by
  intro l
  induction l with
  | nil => intro e d h; simp [credsFetchLoop] at h
  | cons s rest ih =>
    intro e d h
    cases s with
    | ok o =>
      cases o with
      | some d' => simp [credsFetchLoop]
      | none => simp [credsFetchLoop]
    | error m => simp [credsFetchLoop]

/-- The JSON body found by the strategy loop came from one of the
strategies. -/
theorem credsFetchLoop_mem :
    ∀ (l : List (Except String (Option ExchangeData))) (e : String)
      (d : ExchangeData), (credsFetchLoop l e).1 = some d →
      Except.ok (some d) ∈ l := by
  intro l
  induction l with
  | nil => intro e d h; simp [credsFetchLoop] at h
  | cons s rest ih =>
    intro e d h
    cases s with
    | ok o =>
      cases o with
      | some d' =>
        simp [credsFetchLoop] at h
        simp [h]
      | none =>
        simp [credsFetchLoop] at h
        exact List.mem_cons_of_mem _ (ih _ _ h)
    | error m =>
      simp [credsFetchLoop] at h
      exact List.mem_cons_of_mem _ (ih _ _ h)


/-- Anatomy of a successful fresh exchange: the resolved credential is
stored in the cache, at least one strategy fetch was issued, and when no
strategy response carries an expiration field the credential is stamped
with the default one-hour validity. -/
theorem exchangeFresh_ok_spec (cache : Option Creds) (env : ExchangeEnv)
    (apiKey : String) (out : ExchangeOut)
    (hout : exchangeFresh cache env apiKey = out) (c' : Creds)
    (h : out.result = .ok c') :
    out.cache = some c' ∧ 1 ≤ out.networkCalls ∧
    ((∀ u r, r ∈ env.strategies u → ∀ d, r = Except.ok (some d) →
        d.Expiration = none ∧ d.expiration = none) →
      c'.expiration = env.now + 3600 * 1000) := by
  simp only [exchangeFresh] at hout
  split at hout
  · subst hout; simp at h
  · split at hout
    · subst hout; simp at h
    · rename_i dec hdec
      split at hout
      · subst hout; simp at h
      · rename_i d hd
        split at hout
        · subst hout
          have h' := Except.ok.inj h
          subst h'
          refine ⟨rfl, credsFetchLoop_calls_pos _ _ _ hd, ?_⟩
          intro hnoexp
          have hx := hnoexp _ _ (credsFetchLoop_mem _ _ _ hd) _ rfl
          simp [hx.1, hx.2]
        · subst hout; simp at h

/-- C6: a successful pre-signed-URL exchange stores the resolved
credential in the process-wide cache; a call returns the cached
credential with no fresh exchange (zero strategy fetches) exactly when
the current time is more than 5 minutes before the cached expiration;
and when no exchange response carries an expiration field the stored
expiration is 1 hour from the time of the exchange. -/
theorem C6_credential_cache (c : Creds) (env : ExchangeEnv) (apiKey : String) :
    (((exchangeHackathonKey (some c) env apiKey).result = .ok c ∧
        (exchangeHackathonKey (some c) env apiKey).networkCalls = 0) ↔
      env.now + 5 * 60 * 1000 < c.expiration) ∧
    (∀ (cache : Option Creds) (c' : Creds),
      (exchangeHackathonKey cache env apiKey).result = .ok c' →
      (exchangeHackathonKey cache env apiKey).cache = some c') ∧
    ((∀ u r, r ∈ env.strategies u → ∀ d, r = Except.ok (some d) →
        d.Expiration = none ∧ d.expiration = none) →
      ∀ (cache : Option Creds) (c' : Creds),
        1 ≤ (exchangeHackathonKey cache env apiKey).networkCalls →
        (exchangeHackathonKey cache env apiKey).result = .ok c' →
        c'.expiration = env.now + 3600 * 1000) := by
  have hhit : ∀ c0 : Creds, env.now + 300000 < c0.expiration →
      exchangeHackathonKey (some c0) env apiKey =
        { result := .ok c0, cache := some c0, networkCalls := 0 } := by
    intro c0 h; simp [exchangeHackathonKey, h]
  have hmiss : ∀ c0 : Creds, ¬ env.now + 300000 < c0.expiration →
      exchangeHackathonKey (some c0) env apiKey =
        exchangeFresh (some c0) env apiKey := by
    intro c0 h; simp [exchangeHackathonKey, h]
  refine ⟨⟨?_, ?_⟩, ?_, ?_⟩
  · rintro ⟨hres, hcalls⟩
    by_contra hm
    have hm' : ¬ env.now + 300000 < c.expiration := by omega
    rw [hmiss c hm'] at hres hcalls
    have := (exchangeFresh_ok_spec _ env apiKey _ rfl c hres).2.1
    omega
  · intro hm
    have hm' : env.now + 300000 < c.expiration := by omega
    rw [hhit c hm']
    exact ⟨rfl, rfl⟩
  · intro cache c' h
    cases cache with
    | none => exact (exchangeFresh_ok_spec none env apiKey _ rfl c' h).1
    | some c0 =>
      by_cases hm : env.now + 300000 < c0.expiration
      · rw [hhit c0 hm] at h ⊢
        simp only [Except.ok.injEq] at h
        simp [h]
      · rw [hmiss c0 hm] at h ⊢
        exact (exchangeFresh_ok_spec _ env apiKey _ rfl c' h).1
  · intro hnoexp cache c' hcalls hres
    cases cache with
    | none => exact (exchangeFresh_ok_spec none env apiKey _ rfl c' hres).2.2 hnoexp
    | some c0 =>
      by_cases hm : env.now + 300000 < c0.expiration
      · rw [hhit c0 hm] at hcalls
        simp at hcalls
      · rw [hmiss c0 hm] at hres
        exact (exchangeFresh_ok_spec _ env apiKey _ rfl c' hres).2.2 hnoexp

/-- C6 witness: a concrete exchange whose response has no expiration
field is stamped with the one-hour default. -/
theorem C6_credential_cache_witness :
    ((⟨"AKIAEXAMPLE", "SECRETEXAMPLE", "TOKEN", 3600000⟩ : Creds).expiration =
      (0 : Int) + 3600 * 1000) :=
  (C6_credential_cache ⟨"A", "B", "C", 0⟩
      { now := 0, atob := fun _ => some "example.com/x"
        strategies := fun _ =>
          [Except.ok (some { AccessKeyId := some "AKIAEXAMPLE"
                             SecretAccessKey := some "SECRETEXAMPLE"
                             SessionToken := some "TOKEN" })] }
      "bedrock-api-key-QQ").2.2
    (by
      intro u r hr d hd
      rw [List.mem_singleton] at hr
      subst hr
      have hdd := Option.some.inj (Except.ok.inj hd)
      subst hdd
      exact ⟨rfl, rfl⟩)
    none ⟨"AKIAEXAMPLE", "SECRETEXAMPLE", "TOKEN", 3600000⟩ (by decide) rfl

/-- The retry loop never waits more than `5 - attempt` times. -/
theorem geminiLoop_waits_le (outs : Nat → GOutcome) :
    ∀ (f a d : Nat), 5 - a ≤ f → (geminiLoop outs a d).2.length ≤ 5 - a := by
  intro f
  induction f with
  | zero =>
    intro a d hf
    unfold geminiLoop
    split
    · simp
    · split
      · rename_i e hcond
        simp only [geminiMaxRetries] at hcond
        omega
      · simp
  | succ f ih =>
    intro a d hf
    unfold geminiLoop
    split
    · simp
    · split
      · rename_i e hcond
        simp only [geminiMaxRetries] at hcond
        have := ih (a + 1) (d * 2) (by omega)
        simp only [List.length_cons]
        omega
      · simp

/-- Unrolling `m` consecutive rate-limited attempts: the loop advances
to attempt `a + m` with the delay doubled `m` times, recording the
backoff waits `d, 2d, ..., d·2^(m-1)`. -/
theorem geminiLoop_unroll (outs : Nat → GOutcome) :
    ∀ (m a d : Nat), a + m ≤ 5 →
    (∀ k, a ≤ k → k < a + m →
      ∃ e, outs k = .failure e ∧ isRateLimit e = true) →
    geminiLoop outs a d =
      ((geminiLoop outs (a + m) (d * 2 ^ m)).1,
        (List.range m).map (fun i => d * 2 ^ i) ++
          (geminiLoop outs (a + m) (d * 2 ^ m)).2) := by
  intro m
  induction m with
  | zero =>
    intro a d _ _
    simp
  | succ m ih =>
    intro a d hm hrl
    obtain ⟨e, he, herl⟩ := hrl a (Nat.le_refl a) (by omega)
    have key : ∀ (r : Except GErr ClassifiedPage × List Nat),
        geminiLoop outs (a + 1) (d * 2) = r →
        geminiLoop outs a d = (r.1, d :: r.2) := by
      intro r hr
      unfold geminiLoop
      rw [he, hr]
      exact dif_pos (show isRateLimit e = true ∧ a < geminiMaxRetries from
        ⟨herl, by simp only [geminiMaxRetries]; omega⟩)
    have hstep := key (geminiLoop outs (a + 1) (d * 2)) rfl
    have hrest := ih (a + 1) (d * 2) (by omega)
      (fun k hk1 hk2 => hrl k (by omega) (by omega))
    have harith1 : a + 1 + m = a + (m + 1) := by omega
    have harith2 : d * 2 * 2 ^ m = d * 2 ^ (m + 1) := by ring
    have hdelays : (d :: (List.range m).map fun i => d * 2 * 2 ^ i) =
        (List.range (m + 1)).map fun i => d * 2 ^ i := by
      rw [List.range_succ_eq_map, List.map_cons, List.map_map]
      have hf : (fun i => d * 2 * 2 ^ i) = ((fun i => d * 2 ^ i) ∘ Nat.succ) := by
        funext i
        simp only [Function.comp, pow_succ, Nat.succ_eq_add_one]
        ring
      rw [hf]
      simp
    rw [hstep, hrest, harith1, harith2, ← hdelays, List.cons_append]

/-- A successful attempt ends the loop at once, with no wait. -/
theorem geminiLoop_success (outs : Nat → GOutcome) (a d : Nat)
    (p : ClassifiedPage) (h : outs a = .success p) :
    geminiLoop outs a d = (.ok p, []) := by
  unfold geminiLoop
  rw [h]

/-- A failing attempt that is not retried (not rate-limited, or retries
exhausted) rethrows the error at once. -/
theorem geminiLoop_stop (outs : Nat → GOutcome) (a d : Nat) (e : GErr)
    (h : outs a = .failure e)
    (hstop : ¬ (isRateLimit e = true ∧ a < geminiMaxRetries)) :
    geminiLoop outs a d = (.error e, []) := by
  unfold geminiLoop
  rw [h]
  exact dif_neg hstop

/-- C5: `classifyPageContent`'s retry policy — after `n ≤ 5` rate-limited
attempts the loop has waited exactly 5000·2⁰, …, 5000·2ⁿ⁻¹ ms (5 s
doubling each retry); a success at attempt `n` returns the page, while a
failure at attempt `n` that is not rate-limited, or arrives when the 5
retries are exhausted, propagates that very error to the caller; and no
run ever waits more than 5 times. -/
theorem C5_gemini_retry (outs : Nat → GOutcome) (n : Nat) (hn : n ≤ 5)
    (hrl : ∀ k, k < n → ∃ e, outs k = .failure e ∧ isRateLimit e = true) :
    (∀ p, outs n = .success p →
      geminiClassify outs = (.ok p, backoffDelays n)) ∧
    (∀ e, outs n = .failure e → (isRateLimit e = false ∨ n = 5) →
      geminiClassify outs = (.error e, backoffDelays n)) ∧
    (geminiClassify outs).2.length ≤ 5 := by
  have hunroll := geminiLoop_unroll outs n 0 5000 (by omega)
    (fun k _ hk => hrl k (by omega))
  simp only [Nat.zero_add] at hunroll
  refine ⟨?_, ?_, ?_⟩
  · intro p hp
    have hterm := geminiLoop_success outs n (5000 * 2 ^ n) p hp
    unfold geminiClassify
    rw [hunroll, hterm]
    simp [backoffDelays]
  · intro e hef hstop
    have hterm := geminiLoop_stop outs n (5000 * 2 ^ n) e hef (by
      rcases hstop with h | h
      · rintro ⟨h1, _⟩
        rw [h] at h1
        cases h1
      · rintro ⟨_, h2⟩
        simp only [geminiMaxRetries] at h2
        omega)
    unfold geminiClassify
    rw [hunroll, hterm]
    simp [backoffDelays]
  · unfold geminiClassify
    have := geminiLoop_waits_le outs 5 0 5000 (by omega)
    simpa using this

/-- C5 witness: one 429 failure, then success — a single 5-second wait. -/
theorem C5_gemini_retry_witness :
    geminiClassify (fun k =>
        if k = 0 then .failure { status := some 429 }
        else .success ⟨"https://u", "T", "S", ⟨[], [], [], []⟩⟩) =
      (.ok ⟨"https://u", "T", "S", ⟨[], [], [], []⟩⟩, backoffDelays 1) :=
  ((C5_gemini_retry _ 1 (by omega) (by
      intro k hk
      interval_cases k
      exact ⟨{ status := some 429 }, rfl, rfl⟩)).1)
    ⟨"https://u", "T", "S", ⟨[], [], [], []⟩⟩ rfl

/-- When every `<loc>...</loc>` content is nonempty and free of line
breaks, the JS regex scan finds exactly the spec's substrings. -/
theorem scans_agree (s : List Char) :
    ∀ (fuel p : Nat),
      (∀ c ∈ specLocContentsScan s fuel p, c ≠ [] ∧ '\n' ∉ c) →
      regexLocScan s fuel p = specLocContentsScan s fuel p := by
  intro fuel
  induction fuel with
  | zero => intro p _; rfl
  | succ fuel ih =>
    intro p h
    simp only [specLocContentsScan] at h
    simp only [regexLocScan, specLocContentsScan]
    cases hdi : findSub "<loc>".data (s.drop p) with
    | none => simp
    | some di =>
      simp only [hdi] at h ⊢
      cases hdj : findSub "</loc>".data (s.drop (p + di + 5)) with
      | none => simp
      | some dj =>
        simp only [hdj] at h ⊢
        have hhead := h _ (List.mem_cons_self _ _)
        have hcontains :
            ((s.drop (p + di + 5)).take dj).contains '\n' = false := by
          cases hc : ((s.drop (p + di + 5)).take dj).contains '\n' with
          | false => rfl
          | true => exact absurd (List.mem_of_elem_eq_true hc) hhead.2
        rw [hcontains]
        simp only [Bool.false_eq_true, if_false]
        congr 1
        exact ih _ (fun c hc => h c (List.mem_cons_of_mem _ hc))

/-- On a list of nonempty captures, the falsy-skip filter is just the
trim map. -/
theorem filterMap_trim (l : List (List Char)) (h : ∀ c ∈ l, c ≠ []) :
    (l.filterMap fun c =>
        if c.isEmpty then none else some (jsTrim (String.mk c))) =
      l.map fun c => jsTrim (String.mk c) := by
  induction l with
  | nil => rfl
  | cons c rest ih =>
    have hc : c.isEmpty = false := by
      cases c with
      | nil => exact absurd rfl (h _ (List.mem_cons_self _ _))
      | cons a as => rfl
    rw [List.filterMap_cons, hc]
    simp only [Bool.false_eq_true, if_false, List.map_cons]
    rw [ih (fun c hc => h c (List.mem_cons_of_mem _ hc))]

/-- C8 counterexample: with a structured parse yielding zero locations,
the fallback does not return the contents of *all* raw
`<loc>...</loc>` substrings: an empty content is a falsy capture and is
skipped, and a content spanning a line break is never matched by the
pattern (JS `.` does not match newlines), so the result differs from
the spec's substring list on the first two inputs.  The third input
shows that no filter on the substring list repairs the claim either:
after the pattern fails at an outer `<loc>` whose content holds a
newline, the engine advances and may match an inner `<loc>` that is
not one of the spec's substrings at all — the fallback returns
`["b"]` where filtering the substring list to nonempty, newline-free
contents predicts `[]`. -/
theorem C8_counterexample :
    (parseSitemap (fun _ => []) "<loc></loc><loc>x</loc>" = ["x"] ∧
      (specLocContents "<loc></loc><loc>x</loc>").map
          (fun c => jsTrim (String.mk c)) = ["", "x"] ∧
      (["x"] : List String) ≠ ["", "x"]) ∧
    (parseSitemap (fun _ => []) "<urlset><loc>a\nb</loc>" = [] ∧
      (specLocContents "<urlset><loc>a\nb</loc>").map
          (fun c => jsTrim (String.mk c)) = ["a\nb"] ∧
      (([] : List String) ≠ ["a\nb"])) ∧
    (parseSitemap (fun _ => []) "<loc>a\nx<loc>b</loc>" = ["b"] ∧
      ((specLocContents "<loc>a\nx<loc>b</loc>").filter
          (fun c => !c.isEmpty && !c.contains '\n')).map
          (fun c => jsTrim (String.mk c)) = [] ∧
      ((["b"] : List String) ≠ [])) := by
  exact ⟨⟨by decide, by decide, by decide⟩, ⟨by decide, by decide, by decide⟩,
    ⟨by decide, by decide, by decide⟩⟩

/-- C8 (amended): when structured parsing yields zero locations,
`parseSitemap` falls back to the textual pattern over the raw input;
for every input whose raw `<loc>...</loc>` substrings all have
nonempty content free of line breaks, the fallback returns exactly
those substrings' trimmed contents, in order of appearance.  The
restriction on the input is forced by the counterexample: an empty
content is a falsy capture and is skipped, and a content spanning a
newline is not matched — after which the scan may pair a later nested
`"<loc>"` instead, so no unconditional filter of the substring list
describes the result. -/
theorem C8_fallback_amended (domLocs : String → List (Option String))
    (x : String) (h0 : domLocs (cleanContentOf x) = [])
    (h1 : ∀ c ∈ specLocContents x, c ≠ [] ∧ '\n' ∉ c) :
    parseSitemap domLocs x =
      (specLocContents x).map fun c => jsTrim (String.mk c) := by
  simp only [specLocContents] at h1
  simp only [parseSitemap, h0, List.length_nil, gt_iff_lt, Nat.lt_irrefl,
    if_false, regexFallback]
  rw [scans_agree x.data _ 0 h1]
  exact filterMap_trim _ (fun c hc => (h1 c hc).1)

/-- C8 witness: a malformed input whose single location is nonempty and
newline-free is extracted and trimmed by the fallback. -/
theorem C8_fallback_amended_witness :
    parseSitemap (fun _ => []) "<p><loc> https://a </loc>" =
      (specLocContents "<p><loc> https://a </loc>").map
        fun c => jsTrim (String.mk c) :=
  C8_fallback_amended (fun _ => []) "<p><loc> https://a </loc>" rfl (by decide)

/-- A pattern that is a prefix of a list occurs in it. -/
theorem listIncl_of_prefix (pat l : List Char)
    (h : pat.isPrefixOf l = true) : listIncl pat l = true := by
  cases l with
  | nil =>
    cases pat with
    | nil => rfl
    | cons a as => simp [List.isPrefixOf] at h
  | cons c rest => simp [listIncl, h]

/-- `indexOf` over a preamble-plus-document split: when the pattern does
not occur in the preamble, has no proper border, and is a prefix of the
document, its first occurrence is exactly at the junction. -/
theorem findSub_append_of_start (pat pre sm : List Char) (hpat : pat ≠ [])
    (hborder : ∀ k, k < pat.length → 0 < k → ¬ pat.drop k <+: pat)
    (hpre : listIncl pat pre = false) (hstart : pat <+: sm) :
    findSub pat (pre ++ sm) = some pre.length := by
  induction pre with
  | nil =>
    cases hsm : sm with
    | nil =>
      rw [hsm] at hstart
      exact absurd (List.prefix_nil.mp hstart) hpat
    | cons c rest =>
      have hb : pat.isPrefixOf (c :: rest) = true := by
        rw [List.isPrefixOf_iff_prefix]
        rw [hsm] at hstart
        exact hstart
      simp [findSub, hb]
  | cons c pre' ih =>
    have hpre2 : pat.isPrefixOf (c :: pre') = false ∧ listIncl pat pre' = false := by
      simpa only [listIncl, Bool.or_eq_false_iff] using hpre
    have hnot : pat.isPrefixOf (c :: (pre' ++ sm)) = false := by
      cases hp : pat.isPrefixOf (c :: (pre' ++ sm)) with
      | false => rfl
      | true =>
        exfalso
        have hpp : pat <+: (c :: pre') ++ sm := by
          rw [← List.isPrefixOf_iff_prefix]
          simpa using hp
        by_cases hm : pat.length ≤ (c :: pre').length
        · have hpt : pat <+: c :: pre' :=
            List.prefix_of_prefix_length_le hpp (List.prefix_append _ _) hm
          have hin := listIncl_of_prefix pat (c :: pre')
            (by rw [List.isPrefixOf_iff_prefix]; exact hpt)
          rw [hpre] at hin
          cases hin
        · push_neg at hm
          obtain ⟨t, ht⟩ := hpp
          have htk : pat.take (c :: pre').length ++ (pat.drop (c :: pre').length ++ t) =
              (c :: pre') ++ sm := by
            rw [← List.append_assoc, List.take_append_drop]
            exact ht
          have hlen : (pat.take (c :: pre').length).length = (c :: pre').length := by
            rw [List.length_take, Nat.min_eq_left (le_of_lt hm)]
          obtain ⟨-, hsm_eq⟩ := List.append_inj htk hlen
          have hdropsm : pat.drop (c :: pre').length <+: sm := ⟨t, hsm_eq⟩
          have hdroppat : pat.drop (c :: pre').length <+: pat :=
            List.prefix_of_prefix_length_le hdropsm hstart
              (by rw [List.length_drop]; omega)
          exact hborder (c :: pre').length hm (by simp) hdroppat
    rw [List.cons_append]
    rw [findSub, hnot]
    simp only [Bool.false_eq_true, if_false, ih hpre2.2, List.length_cons]
    rfl

/-- Lines 9-10 on a preamble followed by a declaration-led document:
the preamble is discarded exactly. -/
theorem cleanContentOf_append (preS sm : String)
    (hpre : listIncl "<?xml".data preS.data = false)
    (hstart : jsStartsWith sm "<?xml" = true) :
    cleanContentOf (preS ++ sm) = sm := by
  have hf : findSub "<?xml".data (preS ++ sm).data = some preS.data.length := by
    rw [String.data_append]
    refine findSub_append_of_start _ _ _ (by decide) (by decide) hpre ?_
    rw [← List.isPrefixOf_iff_prefix]
    exact hstart
  unfold cleanContentOf
  rw [hf]
  show String.mk ((preS ++ sm).data.drop preS.data.length) = sm
  rw [String.data_append, List.drop_left]

/-- Lines 9-10 on a document that itself begins with the declaration:
nothing is discarded. -/
theorem cleanContentOf_of_start (sm : String)
    (hstart : jsStartsWith sm "<?xml" = true) :
    cleanContentOf sm = sm := by
  have hf : findSub "<?xml".data sm.data = some 0 := by
    cases hd : sm.data with
    | nil =>
      rw [jsStartsWith, hd] at hstart
      exact absurd hstart (by decide)
    | cons c rest =>
      rw [jsStartsWith, hd] at hstart
      simp [findSub, hstart]
  unfold cleanContentOf
  rw [hf]
  rfl

/-- C9 counterexample: a valid preamble-led sitemap containing an empty
`<loc></loc>` element (text content `""`) and one ordinary element.
The DOM branch's truthiness test `if (loc)` skips the empty element, so
the result is not the full list of the elements' trimmed text contents,
which the claim demands ("exactly those elements' ... preserving
duplicates"). -/
theorem C9_counterexample :
    parseSitemap
        (fun s =>
          if s = "<?xml version=\"1.0\"?><urlset><loc></loc><loc>https://a</loc></urlset>"
          then [some "", some "https://a"] else [])
        ("Garbage header!\n" ++
          "<?xml version=\"1.0\"?><urlset><loc></loc><loc>https://a</loc></urlset>") =
      ["https://a"] ∧
    (["https://a"] : List String) ≠ ["", "https://a"] :=
  ⟨by decide, by decide⟩

/-- C9 (amended): for a leading preamble that does not contain the
marker `"<?xml"`, followed by a declaration-led XML sitemap on which
structured parsing finds at least one `<loc>` element, `parseSitemap`
returns the trimmed text contents of exactly those elements whose text
content is non-null and nonempty, in document order preserving
duplicates, and the result is identical to parsing the sitemap without
the preamble. -/
theorem C9_preamble_amended (domLocs : String → List (Option String))
    (preS sm : String) (hpre : listIncl "<?xml".data preS.data = false)
    (hstart : jsStartsWith sm "<?xml" = true) (hne : domLocs sm ≠ []) :
    parseSitemap domLocs (preS ++ sm) =
      (domLocs sm).filterMap (fun o =>
        match o with
        | some t => if t.isEmpty then none else some (jsTrim t)
        | none => none) ∧
    parseSitemap domLocs (preS ++ sm) = parseSitemap domLocs sm := by
  have hcc : cleanContentOf (preS ++ sm) = sm := cleanContentOf_append preS sm hpre hstart
  have hcc2 : cleanContentOf sm = sm := cleanContentOf_of_start sm hstart
  have hlen : 0 < (domLocs sm).length := List.length_pos.mpr hne
  constructor
  · simp only [parseSitemap, hcc, gt_iff_lt, hlen, if_true, domBranch]
  · simp only [parseSitemap, hcc, hcc2, gt_iff_lt, hlen, if_true]

/-- C9 witness: a concrete noisy paste parses to the two URLs of the
embedded sitemap, as if the noise were absent. -/
theorem C9_preamble_amended_witness :
    parseSitemap
        (fun s =>
          if s = "<?xml version=\"1.0\"?><urlset><loc> https://a </loc><loc>https://a</loc></urlset>"
          then [some " https://a ", some "https://a"] else [])
        ("Copied from browser\n" ++
          "<?xml version=\"1.0\"?><urlset><loc> https://a </loc><loc>https://a</loc></urlset>") =
      [some " https://a ", some "https://a"].filterMap (fun o =>
        match o with
        | some t => if t.isEmpty then none else some (jsTrim t)
        | none => none) :=
  (C9_preamble_amended _ "Copied from browser\n"
      "<?xml version=\"1.0\"?><urlset><loc> https://a </loc><loc>https://a</loc></urlset>"
      (by decide) (by decide) (by simp)).1

/-- What the JS `Map` lookup of lines 179-181 returns: a member of the
results collection carrying the looked-up URL. -/
theorem resultsLookup_mem :
    ∀ (l : List ClassifiedPage) (acc : Option ClassifiedPage) (url : String)
      (page : ClassifiedPage),
      l.foldl (fun acc r => if r.url = url then some r else acc) acc = some page →
      (page ∈ l ∧ page.url = url) ∨ acc = some page := by
  intro l
  induction l with
  | nil => intro acc url page h; exact Or.inr h
  | cons r rest ih =>
    intro acc url page h
    rcases ih _ _ _ h with ⟨hm, hu⟩ | hacc
    · exact Or.inl ⟨List.mem_cons_of_mem _ hm, hu⟩
    · simp only [] at hacc
      by_cases hr : r.url = url
      · rw [if_pos hr] at hacc
        obtain rfl := Option.some.inj hacc
        exact Or.inl ⟨List.mem_cons_self _ _, hr⟩
      · rw [if_neg hr] at hacc
        exact Or.inr hacc

/-- A URL present in the results collection is found by the lookup. -/
theorem resultsLookup_none :
    ∀ (l : List ClassifiedPage) (acc : Option ClassifiedPage) (url : String),
      l.foldl (fun acc r => if r.url = url then some r else acc) acc = none →
      acc = none ∧ ∀ p ∈ l, p.url ≠ url := by
  intro l
  induction l with
  | nil => intro acc url h; exact ⟨h, by simp⟩
  | cons r rest ih =>
    intro acc url h
    obtain ⟨hstep, hrest⟩ := ih _ _ h
    simp only [] at hstep
    by_cases hr : r.url = url
    · rw [if_pos hr] at hstep
      cases hstep
    · rw [if_neg hr] at hstep
      refine ⟨hstep, ?_⟩
      intro p hp
      rcases List.mem_cons.mp hp with rfl | hp
      · exact hr
      · exact hrest p hp


/-- Step equation: cancellation — `if (!isRunning.current) break`. -/
theorem runQueueAux_break (scrape : String → Except String String)
    (classify : String → String → Except String ClassifiedPage)
    (keepRunning : Nat → Bool) (total : Nat) (it : ProcessingStatus)
    (rest : List ProcessingStatus) (i : Nat) (hk : keepRunning i = false) :
    runQueueAux scrape classify keepRunning total (it :: rest) i =
      { queue := it :: rest, progressTrace := [], scraped := [], classified := [] } := by
  simp [runQueueAux, hk]

/-- Step equation: the `continue` of lines 233-235 for completed items. -/
theorem runQueueAux_skip (scrape : String → Except String String)
    (classify : String → String → Except String ClassifiedPage)
    (keepRunning : Nat → Bool) (total : Nat) (it : ProcessingStatus)
    (rest : List ProcessingStatus) (i : Nat) (hk : keepRunning i = true)
    (hc : it.status = .completed) :
    runQueueAux scrape classify keepRunning total (it :: rest) i =
      { queue := it :: (runQueueAux scrape classify keepRunning total rest (i + 1)).queue
        progressTrace := (runQueueAux scrape classify keepRunning total rest (i + 1)).progressTrace
        scraped := (runQueueAux scrape classify keepRunning total rest (i + 1)).scraped
        classified := (runQueueAux scrape classify keepRunning total rest (i + 1)).classified } := by
  simp [runQueueAux, hk, hc]

/-- Step equation: a fetch failure marks the item `error`. -/
theorem runQueueAux_scrape_err (scrape : String → Except String String)
    (classify : String → String → Except String ClassifiedPage)
    (keepRunning : Nat → Bool) (total : Nat) (it : ProcessingStatus)
    (rest : List ProcessingStatus) (i : Nat) (e : String)
    (hk : keepRunning i = true) (hc : ¬ it.status = .completed)
    (hs : scrape it.url = .error e) :
    runQueueAux scrape classify keepRunning total (it :: rest) i =
      { queue := { it with status := .error, error := some e } ::
          (runQueueAux scrape classify keepRunning total rest (i + 1)).queue
        progressTrace := ((i : ℚ) + 1) / (total : ℚ) * 100 ::
          (runQueueAux scrape classify keepRunning total rest (i + 1)).progressTrace
        scraped := it.url ::
          (runQueueAux scrape classify keepRunning total rest (i + 1)).scraped
        classified := (runQueueAux scrape classify keepRunning total rest (i + 1)).classified } := by
  simp [runQueueAux, hk, hc, hs]

/-- Step equation: a classification failure marks the item `error`. -/
theorem runQueueAux_classify_err (scrape : String → Except String String)
    (classify : String → String → Except String ClassifiedPage)
    (keepRunning : Nat → Bool) (total : Nat) (it : ProcessingStatus)
    (rest : List ProcessingStatus) (i : Nat) (text e : String)
    (hk : keepRunning i = true) (hc : ¬ it.status = .completed)
    (hs : scrape it.url = .ok text) (hcls : classify it.url text = .error e) :
    runQueueAux scrape classify keepRunning total (it :: rest) i =
      { queue := { it with status := .error, error := some e } ::
          (runQueueAux scrape classify keepRunning total rest (i + 1)).queue
        progressTrace := ((i : ℚ) + 1) / (total : ℚ) * 100 ::
          (runQueueAux scrape classify keepRunning total rest (i + 1)).progressTrace
        scraped := it.url ::
          (runQueueAux scrape classify keepRunning total rest (i + 1)).scraped
        classified := it.url ::
          (runQueueAux scrape classify keepRunning total rest (i + 1)).classified } := by
  simp [runQueueAux, hk, hc, hs, hcls]

/-- Step equation: a processed item completes with its classified page. -/
theorem runQueueAux_done (scrape : String → Except String String)
    (classify : String → String → Except String ClassifiedPage)
    (keepRunning : Nat → Bool) (total : Nat) (it : ProcessingStatus)
    (rest : List ProcessingStatus) (i : Nat) (text : String)
    (page : ClassifiedPage) (hk : keepRunning i = true)
    (hc : ¬ it.status = .completed) (hs : scrape it.url = .ok text)
    (hcls : classify it.url text = .ok page) :
    runQueueAux scrape classify keepRunning total (it :: rest) i =
      { queue := { it with status := .completed, data := some page } ::
          (runQueueAux scrape classify keepRunning total rest (i + 1)).queue
        progressTrace := ((i : ℚ) + 1) / (total : ℚ) * 100 ::
          (runQueueAux scrape classify keepRunning total rest (i + 1)).progressTrace
        scraped := it.url ::
          (runQueueAux scrape classify keepRunning total rest (i + 1)).scraped
        classified := it.url ::
          (runQueueAux scrape classify keepRunning total rest (i + 1)).classified } := by
  simp [runQueueAux, hk, hc, hs, hcls]

/-- Completed items pass through the processing loop untouched: every
item holding URL `U` that starts `completed` with data `d` still holds
`U`, `completed` and `d` afterwards, and `U` is handed neither to the
fetcher nor to the classifier. -/
theorem runQueueAux_skips (scrape : String → Except String String)
    (classify : String → String → Except String ClassifiedPage)
    (keepRunning : Nat → Bool) (total : Nat) (U : String)
    (d : Option ClassifiedPage) :
    ∀ (items : List ProcessingStatus) (i : Nat),
      (∀ it ∈ items, it.url = U → it.status = .completed ∧ it.data = d) →
      (∀ it ∈ (runQueueAux scrape classify keepRunning total items i).queue,
        it.url = U → it.status = .completed ∧ it.data = d) ∧
      U ∉ (runQueueAux scrape classify keepRunning total items i).scraped ∧
      U ∉ (runQueueAux scrape classify keepRunning total items i).classified := by
  intro items
  induction items with
  | nil =>
    intro i h
    exact ⟨h, by simp [runQueueAux], by simp [runQueueAux]⟩
  | cons it rest ih =>
    intro i h
    have htail := ih (i + 1) (fun x hx hu => h x (List.mem_cons_of_mem _ hx) hu)
    obtain ⟨hq, hs, hcl⟩ := htail
    cases hk : keepRunning i with
    | false =>
      rw [runQueueAux_break scrape classify keepRunning total it rest i hk]
      exact ⟨h, by simp, by simp⟩
    | true =>
      by_cases hc : it.status = .completed
      · rw [runQueueAux_skip scrape classify keepRunning total it rest i hk hc]
        refine ⟨?_, hs, hcl⟩
        intro x hx hu
        rcases List.mem_cons.mp hx with rfl | hx
        · exact h x (List.mem_cons_self _ _) hu
        · exact hq x hx hu
      · have hne : it.url ≠ U := fun he => hc (h it (List.mem_cons_self _ _) he).1
        have hfin : ∀ (x : ProcessingStatus),
            x.url = it.url →
            (∀ y ∈ x :: (runQueueAux scrape classify keepRunning total rest (i + 1)).queue,
              y.url = U → y.status = .completed ∧ y.data = d) := by
          intro x hxu y hy hu
          rcases List.mem_cons.mp hy with rfl | hy
          · rw [hxu] at hu
            exact absurd hu hne
          · exact hq y hy hu
        have hnots : U ∉ it.url ::
            (runQueueAux scrape classify keepRunning total rest (i + 1)).scraped := by
          simp only [List.mem_cons]
          rintro (rfl | hx)
          · exact hne rfl
          · exact hs hx
        have hnotc : U ∉ it.url ::
            (runQueueAux scrape classify keepRunning total rest (i + 1)).classified := by
          simp only [List.mem_cons]
          rintro (rfl | hx)
          · exact hne rfl
          · exact hcl hx
        cases hscr : scrape it.url with
        | error e =>
          rw [runQueueAux_scrape_err scrape classify keepRunning total it rest i e hk hc hscr]
          exact ⟨hfin _ rfl, hnots, hcl⟩
        | ok text =>
          cases hcls : classify it.url text with
          | error e =>
            rw [runQueueAux_classify_err scrape classify keepRunning total it rest i
              text e hk hc hscr hcls]
            exact ⟨hfin _ rfl, hnots, hnotc⟩
          | ok page =>
            rw [runQueueAux_done scrape classify keepRunning total it rest i
              text page hk hc hscr hcls]
            exact ⟨hfin _ rfl, hnots, hnotc⟩

/-- Completed items are still in the queue after the loop. -/
theorem runQueueAux_keeps_completed (scrape : String → Except String String)
    (classify : String → String → Except String ClassifiedPage)
    (keepRunning : Nat → Bool) (total : Nat) :
    ∀ (items : List ProcessingStatus) (i : Nat) (it : ProcessingStatus),
      it ∈ items → it.status = .completed →
      it ∈ (runQueueAux scrape classify keepRunning total items i).queue := by
  intro items
  induction items with
  | nil => intro i it h; cases h
  | cons x rest ih =>
    intro i it hmem hst
    cases hk : keepRunning i with
    | false =>
      rw [runQueueAux_break scrape classify keepRunning total x rest i hk]
      exact hmem
    | true =>
      rcases List.mem_cons.mp hmem with rfl | hmem
      · rw [runQueueAux_skip scrape classify keepRunning total it rest i hk hst]
        exact List.mem_cons_self _ _
      · have hrec := ih (i + 1) it hmem hst
        by_cases hc : x.status = .completed
        · rw [runQueueAux_skip scrape classify keepRunning total x rest i hk hc]
          exact List.mem_cons_of_mem _ hrec
        · cases hscr : scrape x.url with
          | error e =>
            rw [runQueueAux_scrape_err scrape classify keepRunning total x rest i e hk hc hscr]
            exact List.mem_cons_of_mem _ hrec
          | ok text =>
            cases hcls : classify x.url text with
            | error e =>
              rw [runQueueAux_classify_err scrape classify keepRunning total x rest i
                text e hk hc hscr hcls]
              exact List.mem_cons_of_mem _ hrec
            | ok page =>
              rw [runQueueAux_done scrape classify keepRunning total x rest i
                text page hk hc hscr hcls]
              exact List.mem_cons_of_mem _ hrec

/-- Branch equation for `handleStart`: nothing pending — the queue is
published as initialised and progress jumps to 100 (lines 200-205). -/
theorem handleStartRun_early (scrape : String → Except String String)
    (classify : String → String → Except String ClassifiedPage)
    (keepRunning : Nat → Bool) (urls : List String)
    (results : List ClassifiedPage) (hne : urls.isEmpty = false)
    (hp : ((initQueue urls results).filter fun i => i.status = .pending).length = 0) :
    handleStartRun scrape classify keepRunning urls results =
      { queue := initQueue urls results, progressTrace := [100]
        scraped := [], classified := [] } := by
  simp [handleStartRun, hne, hp]

/-- Branch equation for `handleStart`: pending items — the initial
progress report precedes the loop's reports. -/
theorem handleStartRun_loop (scrape : String → Except String String)
    (classify : String → String → Except String ClassifiedPage)
    (keepRunning : Nat → Bool) (urls : List String)
    (results : List ClassifiedPage) (hne : urls.isEmpty = false)
    (hp : ¬ ((initQueue urls results).filter fun i => i.status = .pending).length = 0) :
    handleStartRun scrape classify keepRunning urls results =
      { queue := (processQueue scrape classify keepRunning (initQueue urls results)).queue
        progressTrace :=
          (if (initQueue urls results).length > 0 then
            ((((initQueue urls results).length -
                ((initQueue urls results).filter fun i => i.status = .pending).length : ℕ) : ℚ) /
              ((initQueue urls results).length : ℚ)) * 100
          else 0) ::
            (processQueue scrape classify keepRunning (initQueue urls results)).progressTrace
        scraped := (processQueue scrape classify keepRunning (initQueue urls results)).scraped
        classified :=
          (processQueue scrape classify keepRunning (initQueue urls results)).classified } := by
  simp [handleStartRun, hne, hp]

/-- C1: a URL `U` present both in the sitemap-derived list and in the
prior results collection is initialised directly to `completed`,
carrying the prior `ClassifiedPage` as its data; the execution loop
skips it — `U` is never handed to the fetcher or the classifier — and
at the end of the run every queue item for `U` (and there is one) is
still `completed` with that data. -/
theorem C1_resume_merge (scrape : String → Except String String)
    (classify : String → String → Except String ClassifiedPage)
    (keepRunning : Nat → Bool) (urls : List String)
    (results : List ClassifiedPage) (U : String) (hU : U ∈ urls)
    (hprior : ∃ p ∈ results, p.url = U) :
    ∃ page, resultsLookup results U = some page ∧ page ∈ results ∧
      page.url = U ∧
      (∀ it ∈ initQueue urls results, it.url = U →
        it = { url := U, status := .completed, data := some page, error := none }) ∧
      ({ url := U, status := .completed, data := some page, error := none } :
          ProcessingStatus) ∈
        (handleStartRun scrape classify keepRunning urls results).queue ∧
      (∀ it ∈ (handleStartRun scrape classify keepRunning urls results).queue,
        it.url = U → it.status = .completed ∧ it.data = some page) ∧
      U ∉ (handleStartRun scrape classify keepRunning urls results).scraped ∧
      U ∉ (handleStartRun scrape classify keepRunning urls results).classified := by
  obtain ⟨p0, hp0mem, hp0url⟩ := hprior
  obtain ⟨page, hpage⟩ : ∃ page, resultsLookup results U = some page := by
    cases hl : resultsLookup results U with
    | some page => exact ⟨page, rfl⟩
    | none =>
      obtain ⟨-, hall⟩ := resultsLookup_none results none U hl
      exact absurd hp0url (hall p0 hp0mem)
  have hmem : page ∈ results ∧ page.url = U := by
    rcases resultsLookup_mem results none U page hpage with h | h
    · exact h
    · cases h
  have hinit : ∀ it ∈ initQueue urls results, it.url = U →
      it = { url := U, status := .completed, data := some page, error := none } := by
    intro it hit hu
    simp only [initQueue, List.mem_map] at hit
    obtain ⟨url, hurl, rfl⟩ := hit
    cases hres : resultsLookup results url with
    | some ex =>
      simp only [hres] at hu ⊢
      subst hu
      rw [hpage] at hres
      obtain rfl := Option.some.inj hres
      rfl
    | none =>
      simp only [hres] at hu
      subst hu
      rw [hpage] at hres
      cases hres
  have hUinit : ({ url := U, status := .completed, data := some page, error := none } :
      ProcessingStatus) ∈ initQueue urls results := by
    simp only [initQueue, List.mem_map]
    refine ⟨U, hU, ?_⟩
    rw [hpage]
  have hne : urls.isEmpty = false := by
    cases urls with
    | nil => cases hU
    | cons a as => rfl
  have hstart : ∀ it ∈ initQueue urls results, it.url = U →
      it.status = .completed ∧ it.data = some page := by
    intro it hit hu
    rw [hinit it hit hu]
    exact ⟨rfl, rfl⟩
  by_cases hp : ((initQueue urls results).filter fun i => i.status = .pending).length = 0
  · rw [handleStartRun_early scrape classify keepRunning urls results hne hp]
    exact ⟨page, hpage, hmem.1, hmem.2, hinit, hUinit, hstart, by simp, by simp⟩
  · rw [handleStartRun_loop scrape classify keepRunning urls results hne hp]
    obtain ⟨hq, hsc, hcl⟩ := runQueueAux_skips scrape classify keepRunning
      (initQueue urls results).length U (some page) (initQueue urls results) 0 hstart
    exact ⟨page, hpage, hmem.1, hmem.2, hinit,
      runQueueAux_keeps_completed scrape classify keepRunning
        (initQueue urls results).length (initQueue urls results) 0 _ hUinit rfl,
      hq, hsc, hcl⟩

/-- C1 witness: a one-URL sitemap whose URL already sits in the prior
results is never fetched again. -/
theorem C1_resume_merge_witness :
    ∃ page,
      resultsLookup [⟨"https://b", "TB", "SB", ⟨[], [], [], []⟩⟩] "https://b" =
        some page ∧
      page ∈ [(⟨"https://b", "TB", "SB", ⟨[], [], [], []⟩⟩ : ClassifiedPage)] ∧
      page.url = "https://b" ∧
      (∀ it ∈ initQueue ["https://b"] [⟨"https://b", "TB", "SB", ⟨[], [], [], []⟩⟩],
        it.url = "https://b" →
        it = { url := "https://b", status := .completed, data := some page, error := none }) ∧
      ({ url := "https://b", status := .completed, data := some page, error := none } :
          ProcessingStatus) ∈
        (handleStartRun (fun _ => .error "offline") (fun _ _ => .error "offline")
          (fun _ => true) ["https://b"]
          [⟨"https://b", "TB", "SB", ⟨[], [], [], []⟩⟩]).queue ∧
      (∀ it ∈ (handleStartRun (fun _ => .error "offline") (fun _ _ => .error "offline")
          (fun _ => true) ["https://b"]
          [⟨"https://b", "TB", "SB", ⟨[], [], [], []⟩⟩]).queue,
        it.url = "https://b" → it.status = .completed ∧ it.data = some page) ∧
      "https://b" ∉ (handleStartRun (fun _ => .error "offline")
          (fun _ _ => .error "offline") (fun _ => true) ["https://b"]
          [⟨"https://b", "TB", "SB", ⟨[], [], [], []⟩⟩]).scraped ∧
      "https://b" ∉ (handleStartRun (fun _ => .error "offline")
          (fun _ _ => .error "offline") (fun _ => true) ["https://b"]
          [⟨"https://b", "TB", "SB", ⟨[], [], [], []⟩⟩]).classified :=
  C1_resume_merge (fun _ => .error "offline") (fun _ _ => .error "offline")
    (fun _ => true) ["https://b"] [⟨"https://b", "TB", "SB", ⟨[], [], [], []⟩⟩]
    "https://b" (by decide) ⟨⟨"https://b", "TB", "SB", ⟨[], [], [], []⟩⟩, by decide, rfl⟩

/-- A loop progress report of `((i+1)/total)·100` equals 100 only at the
final index. -/
theorem prog_eq_100 (i total : Nat) (h0 : 0 < total)
    (h : ((i : ℚ) + 1) / (total : ℚ) * 100 = 100) : i + 1 = total := by
  have ht : (total : ℚ) ≠ 0 := Nat.cast_ne_zero.mpr (by omega)
  have h' : ((i : ℚ) + 1) = (total : ℚ) := by
    field_simp at h
    linarith
  exact_mod_cast h'

/-- A ratio report of `(a/total)·100` equals 100 only when `a = total`. -/
theorem ratio_eq_100 (a total : Nat) (h0 : 0 < total)
    (h : ((a : ℚ)) / (total : ℚ) * 100 = 100) : a = total := by
  have ht : (total : ℚ) ≠ 0 := Nat.cast_ne_zero.mpr (by omega)
  have h' : ((a : ℚ)) = (total : ℚ) := by
    field_simp at h
    linarith
  exact_mod_cast h'

/-- If the loop's final progress report is 100, every item in the final
queue is `completed` or `error`. -/
theorem runQueueAux_last_100 (scrape : String → Except String String)
    (classify : String → String → Except String ClassifiedPage)
    (keepRunning : Nat → Bool) (total : Nat) (h0 : 0 < total) :
    ∀ (items : List ProcessingStatus) (i : Nat), i + items.length = total →
      (runQueueAux scrape classify keepRunning total items i).progressTrace.getLast? =
        some 100 →
      ∀ it ∈ (runQueueAux scrape classify keepRunning total items i).queue,
        it.status = .completed ∨ it.status = .error := by
  intro items
  induction items with
  | nil =>
    intro i hi h
    rw [show (runQueueAux scrape classify keepRunning total [] i).progressTrace =
      [] from rfl] at h
    simp at h
  | cons it rest ih =>
    intro i hi h
    simp only [List.length_cons] at hi
    cases hk : keepRunning i with
    | false =>
      have hT : (runQueueAux scrape classify keepRunning total (it :: rest) i).progressTrace =
          [] := by
        rw [runQueueAux_break scrape classify keepRunning total it rest i hk]
      rw [hT] at h
      simp at h
    | true =>
      by_cases hc : it.status = .completed
      · have hT : (runQueueAux scrape classify keepRunning total (it :: rest) i).progressTrace =
            (runQueueAux scrape classify keepRunning total rest (i + 1)).progressTrace := by
          rw [runQueueAux_skip scrape classify keepRunning total it rest i hk hc]
        have hQ : (runQueueAux scrape classify keepRunning total (it :: rest) i).queue =
            it :: (runQueueAux scrape classify keepRunning total rest (i + 1)).queue := by
          rw [runQueueAux_skip scrape classify keepRunning total it rest i hk hc]
        rw [hT] at h
        intro x hx
        rw [hQ] at hx
        rcases List.mem_cons.mp hx with rfl | hx
        · exact Or.inl hc
        · exact ih (i + 1) (by omega) h x hx
      · have hcase : ∃ newit : ProcessingStatus,
            (newit.status = .completed ∨ newit.status = .error) ∧
            (runQueueAux scrape classify keepRunning total (it :: rest) i).progressTrace =
              ((i : ℚ) + 1) / (total : ℚ) * 100 ::
                (runQueueAux scrape classify keepRunning total rest (i + 1)).progressTrace ∧
            (runQueueAux scrape classify keepRunning total (it :: rest) i).queue =
              newit :: (runQueueAux scrape classify keepRunning total rest (i + 1)).queue := by
          cases hscr : scrape it.url with
          | error e =>
            refine ⟨{ it with status := .error, error := some e }, Or.inr rfl, ?_, ?_⟩ <;>
              rw [runQueueAux_scrape_err scrape classify keepRunning total it rest i e
                hk hc hscr]
          | ok text =>
            cases hcls : classify it.url text with
            | error e =>
              refine ⟨{ it with status := .error, error := some e }, Or.inr rfl, ?_, ?_⟩ <;>
                rw [runQueueAux_classify_err scrape classify keepRunning total it rest i
                  text e hk hc hscr hcls]
            | ok page =>
              refine ⟨{ it with status := .completed, data := some page }, Or.inl rfl,
                  ?_, ?_⟩ <;>
                rw [runQueueAux_done scrape classify keepRunning total it rest i
                  text page hk hc hscr hcls]
        obtain ⟨newit, hnewst, hT, hQ⟩ := hcase
        rw [hT] at h
        intro x hx
        rw [hQ] at hx
        rcases List.mem_cons.mp hx with rfl | hx
        · exact hnewst
        · cases htt : (runQueueAux scrape classify keepRunning total rest
              (i + 1)).progressTrace with
          | nil =>
            rw [htt] at h
            simp only [List.getLast?_singleton, Option.some.injEq] at h
            have hfin := prog_eq_100 i total h0 h
            have hrest0 : rest = [] := List.length_eq_zero.mp (by omega)
            subst hrest0
            rw [show (runQueueAux scrape classify keepRunning total [] (i + 1)).queue =
              [] from rfl] at hx
            cases hx
          | cons w ws =>
            rw [htt, List.getLast?_cons_cons, ← htt] at h
            exact ih (i + 1) (by omega) h x hx

/-- Queue initialisation produces only `pending` and `completed` items. -/
theorem initQueue_status (urls : List String) (results : List ClassifiedPage) :
    ∀ it ∈ initQueue urls results,
      it.status = .pending ∨ it.status = .completed := by
  intro it hit
  simp only [initQueue, List.mem_map] at hit
  obtain ⟨url, _, rfl⟩ := hit
  cases hres : resultsLookup results url <;> simp [hres]

/-- C4 (amended): the initial progress report does equal
(items no longer pending)/(total)·100, and a reported progress of 100
implies every item is `Completed` or `Error`; when everything is already
completed at start the single report is exactly 100.  (The converse of
the 100% criterion fails on the code: in-loop reports are
(processed index + 1)/total·100, so pre-completed items lying after the
last processed index leave the final report below 100 even though every
item is resolved — see the counterexample.) -/
theorem C4_progress_amended (scrape : String → Except String String)
    (classify : String → String → Except String ClassifiedPage)
    (keepRunning : Nat → Bool) (urls : List String)
    (results : List ClassifiedPage) (hne : urls ≠ []) :
    (handleStartRun scrape classify keepRunning urls results).progressTrace.head? =
      some ((((initQueue urls results).length -
          ((initQueue urls results).filter fun i => i.status = .pending).length : ℕ) : ℚ) /
        ((initQueue urls results).length : ℚ) * 100) ∧
    ((handleStartRun scrape classify keepRunning urls results).progressTrace.getLast? =
        some 100 →
      ∀ it ∈ (handleStartRun scrape classify keepRunning urls results).queue,
        it.status = .completed ∨ it.status = .error) ∧
    ((∀ it ∈ initQueue urls results, it.status = .completed) →
      (handleStartRun scrape classify keepRunning urls results).progressTrace = [100]) := by
  have hempt : urls.isEmpty = false := by
    cases urls with
    | nil => exact absurd rfl hne
    | cons a as => rfl
  have hlen : 0 < (initQueue urls results).length := by
    simp only [initQueue, List.length_map]
    cases urls with
    | nil => exact absurd rfl hne
    | cons a as => simp
  have hple : ((initQueue urls results).filter fun i => i.status = .pending).length ≤
      (initQueue urls results).length := List.length_filter_le _ _
  by_cases hp : ((initQueue urls results).filter fun i => i.status = .pending).length = 0
  · rw [handleStartRun_early scrape classify keepRunning urls results hempt hp]
    have hnp : ∀ x ∈ initQueue urls results, ¬ x.status = .pending := by
      intro x hx hpend
      have hmem : x ∈ (initQueue urls results).filter fun i => i.status = .pending := by
        rw [List.mem_filter]
        exact ⟨hx, by simp [hpend]⟩
      rw [List.length_eq_zero.mp hp] at hmem
      cases hmem
    refine ⟨?_, ?_, fun _ => rfl⟩
    · have h1 : (((initQueue urls results).length : ℚ)) /
          ((initQueue urls results).length : ℚ) * 100 = 100 := by
        rw [div_self (Nat.cast_ne_zero.mpr (by omega))]
        norm_num
      rw [hp, Nat.sub_zero, h1]
      rfl
    · intro _ it hit
      rcases initQueue_status urls results it hit with h | h
      · exact absurd h (hnp it hit)
      · exact Or.inl h
  · have hT : (handleStartRun scrape classify keepRunning urls results).progressTrace =
        (if (initQueue urls results).length > 0 then
          ((((initQueue urls results).length -
              ((initQueue urls results).filter fun i => i.status = .pending).length : ℕ) : ℚ) /
            ((initQueue urls results).length : ℚ)) * 100
        else 0) ::
          (processQueue scrape classify keepRunning
            (initQueue urls results)).progressTrace := by
      rw [handleStartRun_loop scrape classify keepRunning urls results hempt hp]
    have hQ : (handleStartRun scrape classify keepRunning urls results).queue =
        (processQueue scrape classify keepRunning (initQueue urls results)).queue := by
      rw [handleStartRun_loop scrape classify keepRunning urls results hempt hp]
    refine ⟨?_, ?_, ?_⟩
    · rw [hT, if_pos hlen]
      rfl
    · intro h100 it hit
      rw [hT] at h100
      rw [hQ] at hit
      cases htt : (processQueue scrape classify keepRunning
          (initQueue urls results)).progressTrace with
      | nil =>
        rw [htt, if_pos hlen] at h100
        simp only [List.getLast?_singleton, Option.some.injEq] at h100
        have hr := ratio_eq_100 _ _ hlen h100
        exact absurd hr (by omega)
      | cons w ws =>
        rw [htt, List.getLast?_cons_cons, ← htt] at h100
        exact runQueueAux_last_100 scrape classify keepRunning
          (initQueue urls results).length hlen (initQueue urls results) 0
          (by simp) h100 it hit
    · intro hall
      exfalso
      apply hp
      have hfil : ((initQueue urls results).filter fun i => i.status = .pending) = [] := by
        rw [List.filter_eq_nil_iff]
        intro x hx
        simp [hall x hx]
      rw [hfil]
      rfl

/-- C4 counterexample: a two-URL sitemap whose *second* URL is already
in the prior results.  The run processes only index 0 and reports
`(0+1)/2·100 = 50` there — and `handleStart` never updates progress after
the loop — so the run ends with every item `completed` while the last
reported progress is 50, not (items no longer pending)/(total)·100 =
100; the "100% iff all items completed or error" equivalence fails. -/
theorem C4_counterexample :
    (handleStartRun (fun _ => .ok "text")
        (fun u _ => .ok ⟨u, "T", "S", ⟨[], [], [], []⟩⟩) (fun _ => true)
        ["https://a", "https://b"]
        [⟨"https://b", "TB", "SB", ⟨[], [], [], []⟩⟩]).progressTrace = [50, 50] ∧
    (∀ it ∈ (handleStartRun (fun _ => .ok "text")
        (fun u _ => .ok ⟨u, "T", "S", ⟨[], [], [], []⟩⟩) (fun _ => true)
        ["https://a", "https://b"]
        [⟨"https://b", "TB", "SB", ⟨[], [], [], []⟩⟩]).queue,
      it.status = .completed) ∧
    ((50 : ℚ) ≠ ((2 : ℚ) / 2) * 100) := by
  have hinit : initQueue ["https://a", "https://b"]
      [⟨"https://b", "TB", "SB", ⟨[], [], [], []⟩⟩] =
      [{ url := "https://a", status := .pending },
       { url := "https://b", status := .completed
         data := some ⟨"https://b", "TB", "SB", ⟨[], [], [], []⟩⟩ }] := by decide
  refine ⟨?_, by decide, by norm_num⟩
  have hT := handleStartRun_loop (fun _ => .ok "text")
    (fun u _ => .ok ⟨u, "T", "S", ⟨[], [], [], []⟩⟩) (fun _ => true)
    ["https://a", "https://b"] [⟨"https://b", "TB", "SB", ⟨[], [], [], []⟩⟩]
    (by decide) (by decide)
  rw [hT, hinit]
  have h2 := runQueueAux_done (fun _ => .ok "text")
    (fun u _ => .ok ⟨u, "T", "S", ⟨[], [], [], []⟩⟩) (fun _ => true) 2
    { url := "https://a", status := .pending }
    [{ url := "https://b", status := .completed
       data := some ⟨"https://b", "TB", "SB", ⟨[], [], [], []⟩⟩ }] 0 "text"
    ⟨"https://a", "T", "S", ⟨[], [], [], []⟩⟩ rfl (by decide) rfl rfl
  have h3 := runQueueAux_skip (fun _ => .ok "text")
    (fun u _ => .ok ⟨u, "T", "S", ⟨[], [], [], []⟩⟩) (fun _ => true) 2
    { url := "https://b", status := .completed
      data := some ⟨"https://b", "TB", "SB", ⟨[], [], [], []⟩⟩ } [] (0 + 1) rfl rfl
  have hPQ : processQueue (fun _ => .ok "text")
      (fun u _ => .ok ⟨u, "T", "S", ⟨[], [], [], []⟩⟩) (fun _ => true)
      [{ url := "https://a", status := .pending },
       { url := "https://b", status := .completed
         data := some ⟨"https://b", "TB", "SB", ⟨[], [], [], []⟩⟩ }] =
      runQueueAux (fun _ => .ok "text")
        (fun u _ => .ok ⟨u, "T", "S", ⟨[], [], [], []⟩⟩) (fun _ => true) 2
        [{ url := "https://a", status := .pending },
         { url := "https://b", status := .completed
           data := some ⟨"https://b", "TB", "SB", ⟨[], [], [], []⟩⟩ }] 0 := rfl
  rw [hPQ, h2]
  have hT3 : (runQueueAux (fun _ => .ok "text")
      (fun u _ => .ok ⟨u, "T", "S", ⟨[], [], [], []⟩⟩) (fun _ => true) 2
      [{ url := "https://b", status := .completed
         data := some ⟨"https://b", "TB", "SB", ⟨[], [], [], []⟩⟩ }]
      (0 + 1)).progressTrace = [] := by
    rw [h3]
    rfl
  simp only [hT3]
  norm_num [List.filter,
    show decide (PStatus.completed = PStatus.pending) = false from rfl]

/-- C4 witness: when every sitemap URL is already completed from prior
results, the single progress report is exactly 100. -/
theorem C4_progress_amended_witness :
    (handleStartRun (fun _ => .error "offline") (fun _ _ => .error "offline")
        (fun _ => true) ["https://b"]
        [⟨"https://b", "TB", "SB", ⟨[], [], [], []⟩⟩]).progressTrace = [100] :=
  (C4_progress_amended (fun _ => .error "offline") (fun _ _ => .error "offline")
    (fun _ => true) ["https://b"] [⟨"https://b", "TB", "SB", ⟨[], [], [], []⟩⟩]
    (by decide)).2.2 (by decide)
